import Mathlib

/-!
Shallow embedding of `src/journal-watch.cpp` (sandsmark/journal-watch),
a live tail utility over the systemd journal.  The journal itself
(`sd_journal_*`) is an external collaborator; its cursor semantics are
modelled from the spec's LogSource interface section and the documented
sd-journal behaviour (step past a boundary returns 0 and leaves the
position unchanged; errors are negative).  Everything else is translated
directly from the C++ source.
-/

namespace JournalWatch

/-! ## Colors (journal-watch.cpp lines 29-49) -/

namespace Color

def brightGray : String := "\x1b[00;37m"

def white : String := "\x1b[00;39m"

def brightWhite : String := "\x1b[01;39m"

def blue : String := "\x1b[00;34m"

def brightBlue : String := "\x1b[01;34m"

def green : String := "\x1b[00;32m"

def brightGreen : String := "\x1b[01;32m"

def yellow : String := "\x1b[00;93m"

def brightYellow : String := "\x1b[01;33m"

def orange : String := "\x1b[00;33m"

def red : String := "\x1b[00;31m"

def brightRed : String := "\x1b[00;101m"

def reset : String := "\x1b[0m"

end Color

/-! ## C++ numeric string parsing (std::stol / std::stoi)

`std::stol`/`std::stoi` use `strtol` semantics: skip leading white space,
accept an optional sign, then one or more decimal digits (trailing
garbage ignored); `invalid_argument` when no digits were consumed and
`out_of_range` when the value does not fit the result type.  Both call
sites in the source catch every exception, so a thrown conversion is
modelled as `none`. -/

def isCSpace (c : Char) : Bool :=
  c = ' ' || c = '\t' || c = '\n' || c = '\x0b' || c = '\x0c' || c = '\r'

def skipSpaces : List Char → List Char
  | [] => []
  | c :: rest => if isCSpace c then skipSpaces rest else c :: rest

def digitsToNat (ds : List Char) : Nat :=
  ds.foldl (fun acc c => acc * 10 + (c.toNat - 48)) 0

/-- Parse, in `strtol` style, a decimal integer with optional sign from the
head of a character list; `none` when no digit is consumed. -/
def strtolParse (s : List Char) : Option Int :=
  let t := skipSpaces s
  let signed : Int × List Char :=
    match t with
    | '-' :: rest => (-1, rest)
    | '+' :: rest => (1, rest)
    | _ => (1, t)
  let ds := signed.2.takeWhile Char.isDigit
  if ds.isEmpty then none
  else some (signed.1 * (digitsToNat ds : Int))

/-- Model of `std::stol` on a 64-bit `long`: out-of-range throws, which every
caller in the source catches, hence `none`. -/
def stol (s : String) : Option Int :=
  match strtolParse s.data with
  | none => none
  | some v => if v < -(2 ^ 63) || 2 ^ 63 - 1 < v then none else some v

/-- Model of `std::stoi` on a 32-bit `int`: out-of-range throws, which the caller
in the source catches, hence `none`. -/
def stoi (s : String) : Option Int :=
  match strtolParse s.data with
  | none => none
  | some v => if v < -(2 ^ 31) || 2 ^ 31 - 1 < v then none else some v

/-! ## IdentityResolver: getUsername (lines 51-73)

`getpwuid` is the local identity database, modelled as a partial map from
numeric ids to entries carrying a display name (`pw_name`). -/

def getUsername (db : Int → Option String) (uidString : String) : String :=
  match stol uidString with
  | none => uidString
  | some uid =>
    if uid < 0 then uidString
    else
      match db uid with
      | none => uidString
      | some name => if name.length = 0 then uidString else name

/-! ## FieldExtractor: fetchField (lines 75-102) -/

/-- Result of one `sd_journal_get_data` call, as the source discriminates
it: `-ret == EAGAIN`, `-ret == ENOENT`, any other `ret < 0`, or success
with the raw `FIELD=value` payload. -/
inductive GetDataResult where
  | again : GetDataResult
  | noent : GetDataResult
  | error (errno : Int) : GetDataResult
  | ok (data : String) : GetDataResult
deriving DecidableEq

/-- Diagnostic messages `fetchField` writes on its error channel. -/
inductive Diag where
  | timeout (field : String) : Diag
  | fetchError (field : String) (errno : Int) : Diag
deriving DecidableEq

structure FetchResult where
  value : String
  attempts : Nat
  diag : Option Diag
deriving DecidableEq

/-- The `size_t` subtraction `a - b`, wrapping modulo `2^64` (both operands
are `size_t` values below `2^64`). -/
def sizeSub (a b : Nat) : Nat :=
  (a + 2 ^ 64 - b) % 2 ^ 64

/-- Conversion of an unsigned 64-bit value to a C `int` (32-bit, modular
two's complement, as gcc/clang implement it). -/
def toInt32 (v : Nat) : Int :=
  let r : Nat := v % 2 ^ 32
  if r < 2 ^ 31 then (r : Int) else (r : Int) - 2 ^ 32

/-- Line 95: `const int textLength = messageLength - fieldLength;` with
`messageLength` and `fieldLength` of type `size_t`. -/
def textLengthCode (messageLength fieldLength : Nat) : Int :=
  toInt32 (sizeSub messageLength fieldLength)

/-- Lines 93-97: strip the `FIELD=` prefix.  When the computed length is
negative the C++ constructs `std::string` from a wrapped huge count; the
in-range branch is the only one the value claims use. -/
def extractValue (field data : String) : String :=
  let fieldLength := field.length + 1
  let t := textLengthCode data.length fieldLength
  if 0 ≤ t then ((data.drop fieldLength).take t.toNat) else ""

/-- The retry loop of `fetchField` (lines 79-98): `fuel` is the number of
loop iterations left, `k` the number of `sd_journal_get_data` calls made
so far; `responses` gives the source's reply to the `k`-th call. -/
def fetchFieldGo (responses : Nat → GetDataResult) (field : String) :
    Nat → Nat → FetchResult
  | 0, k => ⟨"", k, some (Diag.timeout field)⟩
  | fuel + 1, k =>
    match responses k with
    | GetDataResult.again => fetchFieldGo responses field fuel (k + 1)
    | GetDataResult.noent => ⟨"", k + 1, none⟩
    | GetDataResult.error e => ⟨"", k + 1, some (Diag.fetchError field e)⟩
    | GetDataResult.ok data => ⟨extractValue field data, k + 1, none⟩

def fetchField (responses : Nat → GetDataResult) (field : String) : FetchResult :=
  fetchFieldGo responses field 10 0

/-! ## RecordRenderer: print_journal_message (lines 104-181)

For the rendering claims the journal behaves as a well-behaved field
store for the current record: a field is either present with a value
(success on the first `sd_journal_get_data` call) or absent (`ENOENT`,
which `fetchField` turns into the empty string). -/

/-- The current record's fields, as name/value pairs. -/
structure Record where
  fields : List (String × String)

/-- What `fetchField` yields against a well-behaved record: the field's
value when present, `""` when absent. -/
def getField (r : Record) (name : String) : String :=
  (r.fields.lookup name).getD ""

/-- Lines 112-144: default the level to `Debug` (7), overwrite it with
`stoi` of the `PRIORITY` value when that parses, then the `switch` on the
level (case 7 and `default` both select `brightGray`). -/
def severityColor (priorityValue : String) : String :=
  let level : Int := (stoi priorityValue).getD 7
  if level = 0 then Color.brightRed
  else if level = 1 then Color.red
  else if level = 2 then Color.orange
  else if level = 3 then Color.brightYellow
  else if level = 4 then Color.yellow
  else if level = 5 then Color.green
  else if level = 6 then Color.white
  else Color.brightGray

/-- Lines 153-160: `_UID` with `_AUDIT_LOGINUID` fallback; when the
chosen value is non-empty, render `:` followed by the resolved name,
otherwise nothing. -/
def identitySegment (db : Int → Option String) (r : Record) : String :=
  let uid0 := getField r "_UID"
  let uid := if uid0.isEmpty then getField r "_AUDIT_LOGINUID" else uid0
  if uid.isEmpty then "" else ":" ++ getUsername db uid

/-- Lines 162-166: `SYSLOG_IDENTIFIER` with `_COMM` fallback, always
printed after a space. -/
def identifierSegment (r : Record) : String :=
  let id0 := getField r "SYSLOG_IDENTIFIER"
  if id0.isEmpty then getField r "_COMM" else id0

/-- Lines 168-171: `[pid]` when `_PID` is non-empty, nothing otherwise. -/
def pidSegment (r : Record) : String :=
  let pid := getField r "_PID"
  if pid.isEmpty then "" else "[" ++ pid ++ "]"

/-- The full output line of lines 149-178.  `fmtTime` stands for
`localtime_r` + `put_time`, a pure function of the realtime stamp. -/
def renderLine (db : Int → Option String) (fmtTime : Nat → String)
    (usec : Nat) (r : Record) : String :=
  "\x1b[02;37m" ++ fmtTime usec ++ getField r "_HOSTNAME"
    ++ identitySegment db r
    ++ " " ++ identifierSegment r
    ++ pidSegment r
    ++ ": " ++ severityColor (getField r "PRIORITY")
    ++ getField r "MESSAGE"
    ++ Color.reset ++ "\n"

/-- Lines 104-181: `sd_journal_get_realtime_usec` returns `rtRet` (and
`usec` on success); a negative `rtRet` returns immediately with no
output, otherwise the line is emitted and 0 returned. -/
def print_journal_message (db : Int → Option String) (fmtTime : Nat → String)
    (rtRet : Int) (usec : Nat) (r : Record) : Int × Option String :=
  if rtRet < 0 then (rtRet, none)
  else (0, some (renderLine db fmtTime usec r))

/-! ## Journal cursor model

Modelled from the spec's LogSource interface and the documented
sd-journal cursor semantics: a journal holds `n` ordered records
(identified by index 0..n-1); the cursor is before the first record
(after `sd_journal_open`), on a record, or after the last record (after
`sd_journal_seek_tail`).  `sd_journal_previous` / `sd_journal_next`
return the number of records moved: 1 on a move, 0 at a boundary without
moving (negative values are reserved for errors, which the pure model
never produces). -/

inductive JPos where
  | head : JPos
  | on (i : Nat) : JPos
  | tail : JPos
deriving DecidableEq

structure Journal where
  n : Nat
  pos : JPos
deriving DecidableEq

/-- A freshly opened journal: cursor before the first record. -/
def openJournal (n : Nat) : Journal := ⟨n, JPos.head⟩

def sd_journal_seek_tail (j : Journal) : Journal := { j with pos := JPos.tail }

def sd_journal_previous (j : Journal) : Journal × Int :=
  match j.pos with
  | JPos.head => (j, 0)
  | JPos.on i => if i = 0 then (j, 0) else ({ j with pos := JPos.on (i - 1) }, 1)
  | JPos.tail => if j.n = 0 then (j, 0) else ({ j with pos := JPos.on (j.n - 1) }, 1)

def sd_journal_next (j : Journal) : Journal × Int :=
  match j.pos with
  | JPos.head => if j.n = 0 then (j, 0) else ({ j with pos := JPos.on 0 }, 1)
  | JPos.on i => if i + 1 < j.n then ({ j with pos := JPos.on (i + 1) }, 1) else (j, 0)
  | JPos.tail => (j, 0)

/-- The record the cursor is on, when it is on one. -/
def currentRecord (j : Journal) : Option Nat :=
  match j.pos with
  | JPos.on i => if i < j.n then some i else none
  | _ => none

/-! ## TailEngine startup (run, lines 185-203) -/

/-- Lines 193-198: step backward `k` times; an error (negative return)
would abort with `none`, a 0 return (start-of-log boundary) just
continues. -/
def stepBackRun : Journal → Nat → Option Journal
  | j, 0 => some j
  | j, k + 1 =>
    let r := sd_journal_previous j
    if r.2 < 0 then none else stepBackRun r.1 k

/-- Lines 200-203: `k` iterations of `print_journal_message` followed by
`sd_journal_next` whose return value is ignored.  A print with no
current record fails its realtime fetch and emits nothing; a print with
a current record emits that record. -/
def renderLoop : Journal → Nat → Journal × List Nat
  | j, 0 => (j, [])
  | j, k + 1 =>
    let rendered : List Nat :=
      match currentRecord j with
      | some i => [i]
      | none => []
    let j' := (sd_journal_next j).1
    let step := renderLoop j' k
    (step.1, rendered ++ step.2)

def history : Nat := 20

/-- The whole startup phase of `run` on a journal of `n` records:
seek to the tail, step back `history` records, then the `history`
render-and-advance iterations.  `none` would mean the backward stepping
hit an error return. -/
def startup (n : Nat) : Option (Journal × List Nat) :=
  (stepBackRun (sd_journal_seek_tail (openJournal n)) history).map
    (fun j => renderLoop j history)

/-- The record indices rendered by the startup phase, in output order. -/
def startupRendered (n : Nat) : List Nat :=
  ((startup n).map Prod.snd).getD []

/-! ## TailEngine steady state: the append drain (lines 262-265) -/

/-- The loop `while (sd_journal_next(*journal)) print_journal_message(*journal);`
with explicit fuel; each successful step renders the record stepped
onto. -/
def drainFuel : Nat → Journal → Journal × List Nat
  | 0, j => (j, [])
  | fuel + 1, j =>
    let r := sd_journal_next j
    if r.2 = 0 then (j, [])
    else
      let rendered : List Nat :=
        match currentRecord r.1 with
        | some i => [i]
        | none => []
      let step := drainFuel fuel r.1
      (step.1, rendered ++ step.2)

/-- The drain loop; `j.n` steps of fuel always suffice since the cursor
only moves forward. -/
def drainAppend (j : Journal) : Journal × List Nat :=
  drainFuel j.n j

/-! ## TailEngine reopen path (lines 266-311) -/

/-- The externally visible operations of the invalidation branch, in
program order. -/
inductive ReopenAction where
  | deregister : ReopenAction
  | stepPrevious : ReopenAction
  | closeHandle : ReopenAction
  | openHandle : ReopenAction
  | seekMonotonic (bootId usec : Nat) : ReopenAction
  | seekTail : ReopenAction
  | registerHandle : ReopenAction
deriving DecidableEq

/-- Lines 266-311, as the sequence of operations performed.  `capture`
is the result of `sd_journal_get_monotonic_usec` on the stepped-back
cursor (`none` when it failed, clearing the `seek` flag);
`seekMonotonicOk` tells whether `sd_journal_seek_monotonic_usec`
succeeds when it is attempted.  Re-opening is assumed to succeed (its
failure calls `exit(EXIT_FAILURE)` instead of continuing). -/
def reopenActions (capture : Option (Nat × Nat)) (seekMonotonicOk : Bool) :
    List ReopenAction :=
  [ReopenAction.deregister, ReopenAction.stepPrevious,
   ReopenAction.closeHandle, ReopenAction.openHandle]
  ++ (match capture with
      | some (bootId, usec) =>
        [ReopenAction.seekMonotonic bootId usec]
        ++ (if seekMonotonicOk then [] else [ReopenAction.seekTail])
      | none => [])
  ++ [ReopenAction.registerHandle]

/-! ## Bootstrap: main (lines 317-339) -/

def EXIT_FAILURE : Int := 1

/-- Function `main`: a failed `sd_journal_open` returns `EXIT_FAILURE`; otherwise
`run`'s return value is stored in `ret` (line 333) and then line 338
returns `EXIT_FAILURE` unconditionally. -/
def mainExitCode (openRet : Int) (_runRet : Int) : Int :=
  if openRet < 0 then EXIT_FAILURE
  else EXIT_FAILURE

/-! ## Helper lemmas -/

lemma string_length_eq_zero_iff (s : String) : s.length = 0 ↔ s = "" := by
  cases s with
  | mk data => simp [String.length, String.ext_iff]

lemma colon_append_ne_empty (s : String) : ":" ++ s ≠ "" := by
  intro h
  have h2 := congrArg String.length h
  simp [String.length_append] at h2
  exact absurd h2.1 (by decide)

/-! ## Claims -/

/-- C2: `main` (lines 317-339) should return 0 on a voluntary loop exit
(`run` returning 0) and non-zero only on fatal failures; the code instead
returns `EXIT_FAILURE` unconditionally after `run` returns — with a
successful open and `run` returning 0, the process exit code is 1, not
0. -/
theorem c2_exit_code_inverted :
    mainExitCode 0 0 = EXIT_FAILURE ∧ mainExitCode 0 0 ≠ 0 := by
  constructor
  · rfl
  · decide

/-- C8: `getUsername` (lines 51-73) is total: a failed parse, a negative
id, a missing database entry or an empty entry name all return the input
unchanged; a non-empty resolved name is returned otherwise; hence the
result is non-empty whenever the input is. -/
theorem c8_getUsername_total (db : Int → Option String) (s : String) :
    (stol s = none → getUsername db s = s) ∧
    (∀ uid : Int, stol s = some uid → uid < 0 → getUsername db s = s) ∧
    (∀ uid : Int, stol s = some uid → 0 ≤ uid → db uid = none →
      getUsername db s = s) ∧
    (∀ (uid : Int) (name : String), stol s = some uid → 0 ≤ uid →
      db uid = some name → name = "" → getUsername db s = s) ∧
    (∀ (uid : Int) (name : String), stol s = some uid → 0 ≤ uid →
      db uid = some name → name ≠ "" → getUsername db s = name) ∧
    (s ≠ "" → getUsername db s ≠ "") := by
  refine ⟨?_, ?_, ?_, ?_, ?_, ?_⟩
  · intro h
    simp [getUsername, h]
  · intro uid h hneg
    simp [getUsername, h, hneg]
  · intro uid h hpos hdb
    simp [getUsername, h, hdb, show ¬uid < 0 by omega]
  · intro uid name h hpos hdb hname
    simp [getUsername, h, hdb, hname, show ¬uid < 0 by omega]
  · intro uid name h hpos hdb hname
    have hlen : ¬name.length = 0 := fun h0 =>
      hname ((string_length_eq_zero_iff name).mp h0)
    simp [getUsername, h, hdb, hlen, show ¬uid < 0 by omega]
  · intro hs
    unfold getUsername
    cases hstol : stol s with
    | none => exact hs
    | some uid =>
      by_cases hneg : uid < 0
      · simp [hneg]
        exact hs
      · simp [hneg]
        cases hdb : db uid with
        | none => exact hs
        | some name =>
          by_cases hlen : name.length = 0
          · simp [hlen]
            exact hs
          · simp [hlen]
            exact fun h0 => hlen ((string_length_eq_zero_iff name).mpr h0)

/-- C8 witness: with a database mapping id 0 to "root", "0" resolves to
"root" (non-empty), and an unmapped "1500" is returned unchanged. -/
theorem c8_getUsername_total_witness :
    getUsername (fun u => if u = 0 then some "root" else none) "0" = "root" ∧
    getUsername (fun u => if u = 0 then some "root" else none) "1500" = "1500" := by
  constructor
  · exact (c8_getUsername_total (fun u => if u = 0 then some "root" else none)
      "0").2.2.2.2.1 0 "root" (by decide) (by decide) (by decide) (by decide)
  · exact (c8_getUsername_total (fun u => if u = 0 then some "root" else none)
      "1500").2.2.1 1500 (by decide) (by decide) (by decide)

/-- C10: the value-length computation of `fetchField` (line 95) is the
unguarded `size_t` subtraction `messageLength - (field.size() + 1)`
narrowed to `int`: whenever a successful read returns data shorter than
the `FIELD=` prefix the computed length wraps to the negative value
`messageLength - fieldLength` instead of an empty or error result. -/
theorem c10_textLength_underflow (messageLength fieldLength : Nat)
    (hlt : messageLength < fieldLength) (hbound : fieldLength ≤ 2 ^ 31) :
    textLengthCode messageLength fieldLength =
      (messageLength : Int) - (fieldLength : Int) ∧
    textLengthCode messageLength fieldLength < 0 := by
  have hd : 1 ≤ fieldLength - messageLength := by omega
  unfold textLengthCode sizeSub toInt32
  have h1 : (messageLength + 2 ^ 64 - fieldLength) % 2 ^ 64 =
      2 ^ 64 - (fieldLength - messageLength) := by omega
  rw [h1]
  have h2 : (2 ^ 64 - (fieldLength - messageLength)) % 2 ^ 32 =
      2 ^ 32 - (fieldLength - messageLength) := by omega
  rw [h2]
  have h3 : ¬(2 ^ 32 - (fieldLength - messageLength) < 2 ^ 31) := by omega
  rw [if_neg h3]
  constructor
  · push_cast
    omega
  · push_cast
    omega

/-- C10 witness: fetching field "PRIORITY" (prefix length 9) against a
successful 3-byte payload computes length -6, a negative wrap. -/
theorem c10_textLength_underflow_witness :
    textLengthCode ("PRI".length) ("PRIORITY".length + 1) = -6 ∧
    textLengthCode ("PRI".length) ("PRIORITY".length + 1) < 0 := by
  have h := c10_textLength_underflow ("PRI".length) ("PRIORITY".length + 1)
    (by decide) (by decide)
  exact ⟨h.1.trans (by decide), h.2⟩

/-- C7: the severity color (lines 112-144) comes from `stoi` on the
`PRIORITY` value, defaulting to 7 (Debug) when absent or unparsable, and
maps through the fixed 8-entry table, with every level outside 0-6
(including 7) rendered dim-gray. -/
theorem c7_severity_color_table (p : String) :
    (stoi p = none → severityColor p = Color.brightGray) ∧
    (∀ v : Int, stoi p = some v →
      (v = 0 → severityColor p = Color.brightRed) ∧
      (v = 1 → severityColor p = Color.red) ∧
      (v = 2 → severityColor p = Color.orange) ∧
      (v = 3 → severityColor p = Color.brightYellow) ∧
      (v = 4 → severityColor p = Color.yellow) ∧
      (v = 5 → severityColor p = Color.green) ∧
      (v = 6 → severityColor p = Color.white) ∧
      ((v < 0 ∨ 7 ≤ v) → severityColor p = Color.brightGray)) := by
  constructor
  · intro h
    simp [severityColor, h]
  · intro v h
    refine ⟨?_, ?_, ?_, ?_, ?_, ?_, ?_, ?_⟩ <;> intro hv
    · simp [severityColor, h, hv]
    · simp [severityColor, h, hv]
    · simp [severityColor, h, hv]
    · simp [severityColor, h, hv]
    · simp [severityColor, h, hv]
    · simp [severityColor, h, hv]
    · simp [severityColor, h, hv]
    · simp [severityColor, h, show v ≠ 0 by omega, show v ≠ 1 by omega,
        show v ≠ 2 by omega, show v ≠ 3 by omega, show v ≠ 4 by omega,
        show v ≠ 5 by omega, show v ≠ 6 by omega]

/-- C7 witness: "3" parses to level 3 and renders bright yellow, the
empty value (absent field) parses to none and renders dim-gray, and "9"
falls through to dim-gray. -/
theorem c7_severity_color_table_witness :
    severityColor "3" = Color.brightYellow ∧
    severityColor "" = Color.brightGray ∧
    severityColor "9" = Color.brightGray := by
  refine ⟨?_, ?_, ?_⟩
  · exact (((c7_severity_color_table "3").2 3 (by decide)).2.2.2.1) rfl
  · exact (c7_severity_color_table "").1 (by decide)
  · exact (((c7_severity_color_table "9").2 9 (by decide)).2.2.2.2.2.2.2)
      (Or.inr (by decide))

/-- C9: `print_journal_message` (lines 104-110) returns the realtime
fetch error immediately, producing no output line at all for that
record, while with a successful realtime fetch it always produces a full
line, whatever the record's fields (absent fields become empty
segments). -/
theorem c9_realtime_failure_no_output (db : Int → Option String)
    (fmtTime : Nat → String) (rtRet : Int) (usec : Nat) (r : Record) :
    (rtRet < 0 → print_journal_message db fmtTime rtRet usec r = (rtRet, none)) ∧
    (0 ≤ rtRet →
      print_journal_message db fmtTime rtRet usec r =
        (0, some (renderLine db fmtTime usec r))) := by
  constructor
  · intro h
    simp [print_journal_message, h]
  · intro h
    simp [print_journal_message, show ¬rtRet < 0 by omega]

/-- C9 witness: a realtime failure with code -22 on a record with every
field absent yields no line; return code 0 on the same record still
renders a (degenerate) line. -/
theorem c9_realtime_failure_no_output_witness :
    print_journal_message (fun _ => none) (fun _ => "t") (-22) 0 ⟨[]⟩ =
      (-22, none) ∧
    print_journal_message (fun _ => none) (fun _ => "t") 0 0 ⟨[]⟩ =
      (0, some (renderLine (fun _ => none) (fun _ => "t") 0 ⟨[]⟩)) := by
  constructor
  · exact (c9_realtime_failure_no_output (fun _ => none) (fun _ => "t")
      (-22) 0 ⟨[]⟩).1 (by decide)
  · exact (c9_realtime_failure_no_output (fun _ => none) (fun _ => "t")
      0 0 ⟨[]⟩).2 (by decide)

/-- C6: the identity segment (lines 153-160) is non-empty (rendered as
`:` plus the resolved name) exactly when `_UID` or `_AUDIT_LOGINUID` is
non-empty, `_UID` winning when both are; and the rendered line contains
the segment between the host part and the rest. -/
theorem c6_identity_segment (db : Int → Option String) (r : Record) :
    (identitySegment db r = "" ↔
      (getField r "_UID" = "" ∧ getField r "_AUDIT_LOGINUID" = "")) ∧
    (getField r "_UID" ≠ "" →
      identitySegment db r = ":" ++ getUsername db (getField r "_UID")) ∧
    (getField r "_UID" = "" → getField r "_AUDIT_LOGINUID" ≠ "" →
      identitySegment db r =
        ":" ++ getUsername db (getField r "_AUDIT_LOGINUID")) ∧
    (∀ (fmtTime : Nat → String) (usec : Nat), ∃ pre post,
      renderLine db fmtTime usec r = pre ++ identitySegment db r ++ post) := by
  refine ⟨?_, ?_, ?_, ?_⟩
  · by_cases hu : getField r "_UID" = ""
    · by_cases ha : getField r "_AUDIT_LOGINUID" = ""
      · simp [identitySegment, String.isEmpty_iff, hu, ha]
      · simp only [identitySegment, String.isEmpty_iff]
        rw [if_pos hu, if_neg ha]
        simp [hu, ha, colon_append_ne_empty]
    · simp only [identitySegment, String.isEmpty_iff]
      rw [if_neg hu, if_neg hu]
      simp [hu, colon_append_ne_empty]
  · intro hu
    simp only [identitySegment, String.isEmpty_iff]
    rw [if_neg hu, if_neg hu]
  · intro hu ha
    simp only [identitySegment, String.isEmpty_iff]
    rw [if_pos hu, if_neg ha]
  · intro fmtTime usec
    refine ⟨"\x1b[02;37m" ++ fmtTime usec ++ getField r "_HOSTNAME",
      " " ++ identifierSegment r ++ pidSegment r
        ++ ": " ++ severityColor (getField r "PRIORITY")
        ++ getField r "MESSAGE" ++ Color.reset ++ "\n", ?_⟩
    simp [renderLine, String.append_assoc]

/-- C6 witness: with both fields set, `_UID` wins (`:0` resolves through
the database to `:root`); with both absent the segment is empty. -/
theorem c6_identity_segment_witness :
    identitySegment (fun u => if u = 0 then some "root" else none)
        ⟨[("_UID", "0"), ("_AUDIT_LOGINUID", "1500")]⟩ =
      ":" ++ getUsername (fun u => if u = 0 then some "root" else none) "0" ∧
    identitySegment (fun u => if u = 0 then some "root" else none) ⟨[]⟩ = "" := by
  constructor
  · exact (c6_identity_segment (fun u => if u = 0 then some "root" else none)
      ⟨[("_UID", "0"), ("_AUDIT_LOGINUID", "1500")]⟩).2.1 (by decide)
  · exact (c6_identity_segment (fun u => if u = 0 then some "root" else none)
      ⟨[]⟩).1.mpr ⟨rfl, rfl⟩

lemma fetchFieldGo_attempts_le (responses : Nat → GetDataResult)
    (field : String) :
    ∀ fuel k, (fetchFieldGo responses field fuel k).attempts ≤ k + fuel := by
  intro fuel
  induction fuel with
  | zero => intro k; simp [fetchFieldGo]
  | succ f ih =>
    intro k
    unfold fetchFieldGo
    cases responses k with
    | again => exact le_trans (ih (k + 1)) (by omega)
    | noent => simp
    | error e => simp
    | ok data => simp

lemma fetchFieldGo_skips_again (responses : Nat → GetDataResult)
    (field : String) :
    ∀ d fuel k, d ≤ fuel →
      (∀ j, k ≤ j → j < k + d → responses j = GetDataResult.again) →
      fetchFieldGo responses field fuel k =
        fetchFieldGo responses field (fuel - d) (k + d) := by
  intro d
  induction d with
  | zero => intro fuel k _ _; simp
  | succ d ih =>
    intro fuel k hle h
    cases fuel with
    | zero => omega
    | succ f =>
      have hk : responses k = GetDataResult.again := h k (le_refl k) (by omega)
      have step : fetchFieldGo responses field (f + 1) k =
          fetchFieldGo responses field f (k + 1) := by
        conv_lhs => rw [fetchFieldGo, hk]
      rw [step, ih f (k + 1) (by omega)
        (fun j hj1 hj2 => h j (by omega) (by omega))]
      have e1 : f - d = f + 1 - (d + 1) := by omega
      have e2 : k + 1 + d = k + (d + 1) := by omega
      rw [e1, e2]

/-- C4: `fetchField` (lines 75-102) makes at most 10 `sd_journal_get_data`
calls per fetch; ten consecutive "try again" replies exhaust the budget
and yield an empty result plus a timeout diagnostic; a "field absent"
reply short-circuits at once with an empty result and no diagnostic
(in particular on the very first attempt); no outcome is an error value
— the function always returns a result. -/
theorem c4_fetchField_retry_budget (responses : Nat → GetDataResult)
    (field : String) :
    (fetchField responses field).attempts ≤ 10 ∧
    ((∀ j, j < 10 → responses j = GetDataResult.again) →
      fetchField responses field = ⟨"", 10, some (Diag.timeout field)⟩) ∧
    (∀ k, k < 10 → (∀ j, j < k → responses j = GetDataResult.again) →
      responses k = GetDataResult.noent →
      fetchField responses field = ⟨"", k + 1, none⟩) := by
  refine ⟨?_, ?_, ?_⟩
  · exact le_trans (fetchFieldGo_attempts_le responses field 10 0) (by omega)
  · intro h
    unfold fetchField
    rw [fetchFieldGo_skips_again responses field 10 10 0 (by omega)
      (fun j hj1 hj2 => h j (by omega))]
    rfl
  · intro k hk h hnoent
    unfold fetchField
    rw [fetchFieldGo_skips_again responses field k 10 0 (by omega)
      (fun j hj1 hj2 => h j (by omega))]
    obtain ⟨m, hm⟩ : ∃ m, 10 - k = m + 1 := ⟨9 - k, by omega⟩
    rw [hm]
    unfold fetchFieldGo
    rw [show 0 + k = k by omega, hnoent]

/-- C4 witness: an always-"try again" source exhausts all 10 attempts
for MESSAGE and reports a timeout; an immediately-absent field returns
empty after a single attempt with no diagnostic. -/
theorem c4_fetchField_retry_budget_witness :
    fetchField (fun _ => GetDataResult.again) "MESSAGE" =
      ⟨"", 10, some (Diag.timeout "MESSAGE")⟩ ∧
    fetchField (fun _ => GetDataResult.noent) "MESSAGE" = ⟨"", 1, none⟩ := by
  constructor
  · exact (c4_fetchField_retry_budget (fun _ => GetDataResult.again)
      "MESSAGE").2.1 (fun j _ => rfl)
  · exact (c4_fetchField_retry_budget (fun _ => GetDataResult.noent)
      "MESSAGE").2.2 0 (by omega) (fun j hj => absurd hj (by omega)) rfl

lemma drainFuel_rendered (n : Nat) :
    ∀ fuel i, i < n → n - 1 - i ≤ fuel →
      (drainFuel fuel ⟨n, JPos.on i⟩).2 =
        (List.range (n - 1 - i)).map (fun t => i + 1 + t) := by
  intro fuel
  induction fuel with
  | zero =>
    intro i hi hle
    rw [show n - 1 - i = 0 by omega]
    simp [drainFuel]
  | succ f ih =>
    intro i hi hle
    by_cases hlt : i + 1 < n
    · have hnext : sd_journal_next ⟨n, JPos.on i⟩ =
          (⟨n, JPos.on (i + 1)⟩, 1) := by
        simp [sd_journal_next, hlt]
      have hcur : currentRecord ⟨n, JPos.on (i + 1)⟩ = some (i + 1) := by
        simp [currentRecord, hlt]
      have hih := ih (i + 1) hlt (by omega)
      simp only [drainFuel, hnext, hcur]
      norm_num
      rw [hih, show n - 1 - i = (n - 1 - (i + 1)) + 1 by omega,
        List.range_succ_eq_map, List.map_cons, List.map_map]
      simp only [List.cons.injEq]
      refine ⟨by trivial, ?_⟩
      refine List.map_congr_left ?_
      intro t _
      simp
      omega
    · have hnext : sd_journal_next ⟨n, JPos.on i⟩ = (⟨n, JPos.on i⟩, 0) := by
        simp [sd_journal_next, hlt]
      rw [show n - 1 - i = 0 by omega]
      simp [drainFuel, hnext]

/-- C5: on an append wake-up the engine drains every pending record
before re-waiting: starting from the cursor on record `n0 - 1` of a
journal that now holds `n0 + k` records, the drain loop renders records
`n0, n0 + 1, …, n0 + k - 1`, all `k` of them, in order. -/
theorem c5_append_drains_backlog (n0 k : Nat) (h : 1 ≤ n0) :
    (drainAppend ⟨n0 + k, JPos.on (n0 - 1)⟩).2 =
      (List.range k).map (fun t => n0 + t) := by
  have hlt : n0 - 1 < n0 + k := by omega
  have hfuel : (n0 + k) - 1 - (n0 - 1) ≤ n0 + k := by omega
  have hmain := drainFuel_rendered (n0 + k) (n0 + k) (n0 - 1) hlt hfuel
  unfold drainAppend
  rw [hmain, show (n0 + k) - 1 - (n0 - 1) = k by omega]
  refine List.map_congr_left ?_
  intro t _
  omega

/-- C5 witness: three records appended in one notification (journal grown
from 2 to 5 records, cursor on record 1) are rendered as 2, 3, 4, in
order, in a single drain. -/
theorem c5_append_drains_backlog_witness :
    (drainAppend ⟨2 + 3, JPos.on (2 - 1)⟩).2 = [2, 3, 4] := by
  exact (c5_append_drains_backlog 2 3 (by omega)).trans (by decide)

lemma stepBackRun_on (n : Nat) :
    ∀ k i, stepBackRun ⟨n, JPos.on i⟩ k = some ⟨n, JPos.on (i - k)⟩ := by
  intro k
  induction k with
  | zero => intro i; simp [stepBackRun]
  | succ m ih =>
    intro i
    by_cases hi : i = 0
    · have hprev : sd_journal_previous ⟨n, JPos.on i⟩ =
          (⟨n, JPos.on i⟩, 0) := by
        simp [sd_journal_previous, hi]
      simp only [stepBackRun, hprev]
      norm_num
      rw [show (⟨n, JPos.on i⟩ : Journal) = ⟨n, JPos.on (i - 1)⟩ by rw [hi],
        ih (i - 1), show i - 1 - m = i - (m + 1) by omega]
    · have hprev : sd_journal_previous ⟨n, JPos.on i⟩ =
          (⟨n, JPos.on (i - 1)⟩, 1) := by
        simp [sd_journal_previous, hi]
      simp only [stepBackRun, hprev]
      norm_num
      rw [ih (i - 1), show i - 1 - m = i - (m + 1) by omega]

lemma stepBackRun_tail_zero :
    ∀ k, stepBackRun ⟨0, JPos.tail⟩ k = some ⟨0, JPos.tail⟩ := by
  intro k
  induction k with
  | zero => simp [stepBackRun]
  | succ m ih =>
    have hprev : sd_journal_previous ⟨0, JPos.tail⟩ = (⟨0, JPos.tail⟩, 0) := by
      simp [sd_journal_previous]
    simp only [stepBackRun, hprev]
    norm_num
    exact ih

lemma stepBackRun_tail (n : Nat) (hn : 1 ≤ n) (k : Nat) :
    stepBackRun ⟨n, JPos.tail⟩ (k + 1) = some ⟨n, JPos.on (n - 1 - k)⟩ := by
  have hprev : sd_journal_previous ⟨n, JPos.tail⟩ =
      (⟨n, JPos.on (n - 1)⟩, 1) := by
    simp [sd_journal_previous, show n ≠ 0 by omega]
  simp only [stepBackRun, hprev]
  norm_num
  exact stepBackRun_on n k (n - 1)

lemma renderLoop_on (n : Nat) :
    ∀ k i, i < n →
      (renderLoop ⟨n, JPos.on i⟩ k).2 =
        (List.range k).map (fun t => min (i + t) (n - 1)) := by
  intro k
  induction k with
  | zero => intro i _; simp [renderLoop]
  | succ m ih =>
    intro i hi
    have hcur : currentRecord ⟨n, JPos.on i⟩ = some i := by
      simp [currentRecord, hi]
    by_cases hlt : i + 1 < n
    · have hnext : sd_journal_next ⟨n, JPos.on i⟩ =
          (⟨n, JPos.on (i + 1)⟩, 1) := by
        simp [sd_journal_next, hlt]
      simp only [renderLoop, hcur, hnext]
      rw [List.range_succ_eq_map, List.map_cons, List.map_map]
      simp only [List.singleton_append, List.cons.injEq]
      constructor
      · omega
      · rw [ih (i + 1) hlt]
        refine List.map_congr_left ?_
        intro t _
        simp
        omega
    · have heq : i = n - 1 := by omega
      have hnext : sd_journal_next ⟨n, JPos.on i⟩ = (⟨n, JPos.on i⟩, 0) := by
        simp [sd_journal_next, hlt]
      simp only [renderLoop, hcur, hnext]
      rw [List.range_succ_eq_map, List.map_cons, List.map_map]
      simp only [List.singleton_append, List.cons.injEq]
      constructor
      · omega
      · rw [ih i hi]
        refine List.map_congr_left ?_
        intro t _
        simp
        omega

lemma renderLoop_tail_zero :
    ∀ k, (renderLoop ⟨0, JPos.tail⟩ k).2 = [] := by
  intro k
  induction k with
  | zero => simp [renderLoop]
  | succ m ih =>
    have hcur : currentRecord ⟨0, JPos.tail⟩ = none := by
      simp [currentRecord]
    have hnext : sd_journal_next ⟨0, JPos.tail⟩ = (⟨0, JPos.tail⟩, 0) := by
      simp [sd_journal_next]
    simp only [renderLoop, hcur, hnext]
    simpa using ih

/-- C1 (amended): the startup phase never aborts — stepping backward
past the start of the log is a benign no-op — and on an empty journal
renders nothing; but on a non-empty journal of `n` records it always
performs `history` (20) render calls, emitting record
`min (n - history + t, n - 1)` at call `t`: for `n ≥ history` these are
the last `history` records in forward order, while for `n < history`
records 0..n-1 appear in order and the last record is re-rendered the
remaining `history - n` times (not `min (history, n)` lines, as the
claim states). -/
theorem c1_startup_history (n : Nat) :
    (startup n).isSome = true ∧
    (n = 0 → startupRendered n = []) ∧
    (1 ≤ n → startupRendered n =
      (List.range history).map (fun t => min (n - history + t) (n - 1))) := by
  by_cases hn : n = 0
  · subst hn
    have hstep := stepBackRun_tail_zero history
    refine ⟨?_, ?_, ?_⟩
    · simp [startup, sd_journal_seek_tail, openJournal, hstep]
    · intro _
      simp [startupRendered, startup, sd_journal_seek_tail, openJournal,
        hstep, renderLoop_tail_zero]
    · intro h
      omega
  · have hn1 : 1 ≤ n := by omega
    have hstep := stepBackRun_tail n hn1 19
    have hi : n - 1 - 19 = n - history := by simp [history]; omega
    rw [hi] at hstep
    have hlt : n - history < n := by simp [history]; omega
    refine ⟨?_, ?_, ?_⟩
    · simp [startup, sd_journal_seek_tail, openJournal,
        show history = 19 + 1 from rfl, hstep]
    · intro h
      omega
    · intro _
      simp only [startupRendered, startup, sd_journal_seek_tail, openJournal,
        show history = 19 + 1 from rfl] at *
      rw [hstep]
      exact renderLoop_on n (19 + 1) (n - (19 + 1)) hlt

/-- C1 witness: with 25 records, startup renders exactly the last 20
records, 5..24, in forward order. -/
theorem c1_startup_history_witness :
    startupRendered 25 =
      (List.range history).map (fun t => min (25 - history + t) 24) ∧
    startupRendered 25 =
      [5, 6, 7, 8, 9, 10, 11, 12, 13, 14, 15, 16, 17, 18, 19, 20,
       21, 22, 23, 24] := by
  have h := (c1_startup_history 25).2.2 (by omega)
  exact ⟨h, h.trans (by decide)⟩

/-- C1 counterexample: a journal holding a single record violates the
claim as stated — startup renders 20 output lines (record 0 twenty
times), not `min (history, 1) = 1`. -/
theorem c1_startup_counterexample :
    startupRendered 1 = List.replicate history 0 ∧
    (startupRendered 1).length ≠ min history 1 := by
  constructor
  · decide
  · decide

/-- C3 (amended): during the reopen path, when a (boot id, offset)
position was captured the engine seeks to exactly that pair, falling
back to seek-to-tail only when that seek fails; when no position was
captured it performs no seek at all on the fresh handle — there is no
seek-to-tail fallback in that case. -/
theorem c3_reopen_seek_policy (bootId usec : Nat) (ok : Bool) :
    ReopenAction.seekMonotonic bootId usec ∈
      reopenActions (some (bootId, usec)) ok ∧
    (ReopenAction.seekTail ∈ reopenActions (some (bootId, usec)) ok ↔
      ok = false) ∧
    (∀ b u, ReopenAction.seekMonotonic b u ∈
      reopenActions (some (bootId, usec)) ok → b = bootId ∧ u = usec) ∧
    (∀ b u, ReopenAction.seekMonotonic b u ∉ reopenActions none ok) ∧
    ReopenAction.seekTail ∉ reopenActions none ok := by
  cases ok <;> simp [reopenActions]

/-- C3 witness: with captured position (7, 42) and a failing monotonic
seek, the engine both attempts the exact seek and falls back to
seek-to-tail; with no captured position it never seeks to tail. -/
theorem c3_reopen_seek_policy_witness :
    ReopenAction.seekMonotonic 7 42 ∈ reopenActions (some (7, 42)) false ∧
    ReopenAction.seekTail ∈ reopenActions (some (7, 42)) false ∧
    ReopenAction.seekTail ∉ reopenActions none false := by
  exact ⟨(c3_reopen_seek_policy 7 42 false).1,
    (c3_reopen_seek_policy 7 42 false).2.1.mpr rfl,
    (c3_reopen_seek_policy 7 42 false).2.2.2.2⟩

/-- C3 counterexample: the claim says a failed position capture falls
back to seek-to-tail, but the invalidation branch guards the whole seek
block on the capture flag — with no captured position neither
`sd_journal_seek_monotonic_usec` nor `sd_journal_seek_tail` is invoked. -/
theorem c3_reopen_counterexample :
    ReopenAction.seekTail ∉ reopenActions none true ∧
    ReopenAction.seekTail ∉ reopenActions none false ∧
    reopenActions none true =
      [ReopenAction.deregister, ReopenAction.stepPrevious,
       ReopenAction.closeHandle, ReopenAction.openHandle,
       ReopenAction.registerHandle] := by
  refine ⟨?_, ?_, ?_⟩ <;> decide

end JournalWatch
